import Mathlib

/-!
Verification of the p2p-share repository's specification against a shallow
embedding of its source.  Each section embeds one component of the code
(ticket codec, frame codec, Noise verification code, sender/receiver transfer
state machine, unique-path selection, embedding controller) as executable Lean
definitions translated from the Rust source, and proves the spec's claims
about them.

Byte values are modelled as `Nat` (with `< 256` hypotheses where the source
type is `u8`), byte buffers as `List Nat`, and strings on the wire as
`List Char`.  External crates (serde_json, base64url, blake3, iroh) are
modelled as abstract parameters with the round-trip facts the code relies on
stated as explicit hypotheses.
-/

namespace P2PShare

/-! ## Ticket codec (src/crates/core/src/ticket.rs) -/

/-- An IP address: four octets for IPv4, eight 16-bit segments for IPv6,
mirroring `std::net::IpAddr`. -/
inductive IpAddr where
  | v4 (o0 o1 o2 o3 : Nat)
  | v6 (s0 s1 s2 s3 s4 s5 s6 s7 : Nat)
  deriving DecidableEq, Repr

/-- `std::net::SocketAddr`: an IP address plus a port. -/
structure SocketAddr where
  ip : IpAddr
  port : Nat
  deriving DecidableEq, Repr

/-- `iroh::NodeAddr`: node id bytes, optional relay URL, direct addresses. -/
structure NodeAddr where
  node_id : List Nat
  relay_url : Option String
  direct_addresses : List SocketAddr
  deriving DecidableEq, Repr

/-- `is_useful_address` from ticket.rs: heuristic deciding whether a local
address is worth advertising in the ticket.  Rejects IPv4 loopback (127/8),
IPv4 link-local (169.254/16), the Docker-bridge pattern 172.16-31.0.1,
IPv6 loopback (::1) and IPv6 link-local (fe80::/10). -/
def is_useful_address (addr : SocketAddr) : Bool :=
  match addr.ip with
  | .v4 o0 o1 o2 o3 =>
    if o0 == 127 then false
    else if o0 == 169 && o1 == 254 then false
    else if o0 == 172 && (16 ≤ o1 && o1 ≤ 31) && o2 == 0 && o3 == 1 then false
    else true
  | .v6 s0 s1 s2 s3 s4 s5 s6 s7 =>
    if s0 == 0 && s1 == 0 && s2 == 0 && s3 == 0 && s4 == 0 && s5 == 0
        && s6 == 0 && s7 == 1 then false
    else if s0 &&& 0xffc0 == 0xfe80 then false
    else true

/-- `filter_node_addr` from ticket.rs: keep only the useful direct
addresses, preserving node id and relay URL. -/
def filter_node_addr (addr : NodeAddr) : NodeAddr :=
  { node_id := addr.node_id
    relay_url := addr.relay_url
    direct_addresses := addr.direct_addresses.filter is_useful_address }

/-- The ticket tag `"p2psh:"` as a character list. -/
def ticketTag : List Char := ['p', '2', 'p', 's', 'h', ':']

/-- `str::strip_prefix` on character lists. -/
def dropTag (tag s : List Char) : Option (List Char) :=
  if tag.isPrefixOf s then some (s.drop tag.length) else none

/-- Errors produced by `ticket::deserialize`. -/
inductive TicketError where
  | badTag
  | badBase64
  | badJson
  | noAddresses
  deriving DecidableEq, Repr

/-- `ticket::serialize`: filter the address, JSON-encode it, base64url-encode
the bytes, and prepend the `p2psh:` tag.  The serde_json encoder and the
base64url encoder live in external crates and are passed as parameters. -/
def serialize (jsonEnc : NodeAddr → List Nat) (b64enc : List Nat → List Char)
    (addr : NodeAddr) : List Char :=
  ticketTag ++ b64enc (jsonEnc (filter_node_addr addr))

/-- `ticket::deserialize`: strip the `p2psh:` tag, base64url-decode, JSON
parse, then reject when the decoded address has an empty direct-address list
and no relay URL.  Decoders of the external crates are parameters. -/
def deserialize (jsonDec : List Nat → Option NodeAddr)
    (b64dec : List Char → Option (List Nat)) (ticket : List Char) :
    Except TicketError NodeAddr :=
  match dropTag ticketTag ticket with
  | none => .error .badTag
  | some data =>
    match b64dec data with
    | none => .error .badBase64
    | some bytes =>
      match jsonDec bytes with
      | none => .error .badJson
      | some addr =>
        if addr.direct_addresses.isEmpty && addr.relay_url.isNone then
          .error .noAddresses
        else
          .ok addr

/-- The literal address list of scenario S6:
`[127.0.0.1:1, 169.254.1.1:2, 172.17.0.1:3, 10.0.0.4:4]`. -/
def s6Addresses : List SocketAddr :=
  [⟨.v4 127 0 0 1, 1⟩, ⟨.v4 169 254 1 1, 2⟩, ⟨.v4 172 17 0 1, 3⟩,
   ⟨.v4 10 0 0 4, 4⟩]

/-- The S6 input node address (relay absent, node id arbitrary). -/
def s6Addr : NodeAddr :=
  { node_id := [1, 2, 3], relay_url := none, direct_addresses := s6Addresses }

/-- A degenerate but round-tripping pair of codecs at the single point
`filter_node_addr s6Addr`, used to witness the codec hypotheses of the
round-trip theorem. -/
def s6JsonEnc : NodeAddr → List Nat := fun _ => [0]

/-- Decoder matching `s6JsonEnc` at the encoded point. -/
def s6JsonDec : List Nat → Option NodeAddr := fun _ =>
  some (filter_node_addr s6Addr)

/-- Base64 stand-in encoder for the witness. -/
def s6B64enc : List Nat → List Char := fun _ => ['A']

/-- Base64 stand-in decoder matching `s6B64enc`. -/
def s6B64dec : List Char → Option (List Nat) := fun _ => some [0]

/-- A node address whose only direct address is loopback and whose relay URL
is absent: every direct address is filtered as non-useful, yet the list
itself is non-empty. -/
def loopbackOnlyAddr : NodeAddr :=
  { node_id := [], relay_url := none,
    direct_addresses := [⟨.v4 127 0 0 1, 1⟩] }

/-! ## Frame codec (src/src/crypto.rs, `send_frame` / `recv_frame`) -/

/-- `NOISE_MAX_MSG`: maximum Noise transport message size. -/
def NOISE_MAX_MSG : Nat := 65535

/-- Big-endian encoding of a `u32` length, as in `u32::to_be_bytes`. -/
def be32 (n : Nat) : List Nat :=
  [n / 2 ^ 24 % 256, n / 2 ^ 16 % 256, n / 2 ^ 8 % 256, n % 256]

/-- Big-endian decoding of four bytes, as in `u32::from_be_bytes`. -/
def beVal (b0 b1 b2 b3 : Nat) : Nat :=
  ((b0 * 256 + b1) * 256 + b2) * 256 + b3

/-- `send_frame`: refuse payloads above `NOISE_MAX_MSG`, otherwise emit the
4-byte big-endian length followed by the payload.  The result is the byte
sequence written to the stream. -/
def send_frame (data : List Nat) : Except String (List Nat) :=
  if data.length > NOISE_MAX_MSG then .error "frame too large"
  else .ok (be32 data.length ++ data)

/-- Failure modes of `recv_frame`: an oversized length prefix is reported
distinctly from plain read failures (truncated stream). -/
inductive FrameError where
  | frameTooLarge
  | readFailed
  deriving DecidableEq, Repr

/-- `recv_frame` applied to the pending input bytes: read four length bytes,
reject lengths above `NOISE_MAX_MSG`, then read exactly that many payload
bytes.  Returns the frame and the unconsumed rest of the input. -/
def recv_frame (input : List Nat) : Except FrameError (List Nat × List Nat) :=
  match input with
  | b0 :: b1 :: b2 :: b3 :: rest =>
    let len := beVal b0 b1 b2 b3
    if len > NOISE_MAX_MSG then .error .frameTooLarge
    else if rest.length < len then .error .readFailed
    else .ok (rest.take len, rest.drop len)
  | _ => .error .readFailed

/-! ## Verification code (src/src/crypto.rs) -/

/-- One lowercase hexadecimal digit, as produced by Rust's `\x7b:02x\x7d`
formatting: values below ten map into the ASCII digits (which start at
code 48), ten to fifteen map into the lowercase letters starting at `a`
(code 97, hence the offset 87). -/
def hexDigit (d : Nat) : Char :=
  if d < 10 then Char.ofNat (48 + d)
  else if d < 16 then Char.ofNat (87 + d)
  else Char.ofNat 32

/-- `format!("{:02x}", b)` for a byte: two lowercase hex digits. -/
def byteHex (b : Nat) : List Char := [hexDigit (b / 16), hexDigit (b % 16)]

/-- `hex::encode` from crypto.rs: concatenate the two-digit encodings. -/
def hexEncode (bs : List Nat) : List Char := (bs.map byteHex).flatten

/-- `verification_code` from crypto.rs: lowercase hex of bytes 0..2 of the
handshake transcript hash, a hyphen, then lowercase hex of bytes 2..4. -/
def verification_code (handshake_hash : List Nat) : List Char :=
  hexEncode (handshake_hash.take 2) ++ ['-']
    ++ hexEncode ((handshake_hash.drop 2).take 2)

/-- `handshake_initiator` derives its displayed code by applying
`verification_code` to the transcript hash it extracted. -/
def initiatorCode (handshake_hash : List Nat) : List Char :=
  verification_code handshake_hash

/-- `handshake_responder` derives its displayed code the same way. -/
def responderCode (handshake_hash : List Nat) : List Char :=
  verification_code handshake_hash

/-- The sixteen lowercase hexadecimal characters. -/
def hexChars : List Char := "0123456789abcdef".toList

/-! ## Sender transfer logic (src/crates/core/src/sender.rs) -/

/-- `CHUNK_SIZE` from protocol.rs: 60 KiB plaintext chunks. -/
def CHUNK_SIZE : Nat := 60 * 1024

/-- `str::trim` restricted to the whitespace the protocol produces. -/
def trimChars (s : List Char) : List Char :=
  ((s.dropWhile Char.isWhitespace).reverse.dropWhile Char.isWhitespace).reverse

/-- Split a byte list into consecutive chunks of at most `k` bytes, as the
sender's `file.read` loop does with its `CHUNK_SIZE` buffer. -/
def chunksOf (k : Nat) (l : List Nat) : List (List Nat) :=
  if _h : k = 0 ∨ l = [] then []
  else l.take k :: chunksOf k (l.drop k)
  termination_by l.length
  decreasing_by
    have hk : k ≠ 0 := fun hk0 => _h (Or.inl hk0)
    have hl : l ≠ [] := fun hl0 => _h (Or.inr hl0)
    have : 0 < l.length := List.length_pos.mpr hl
    simp only [List.length_drop]
    omega

/-- The two session shapes that share the sender logic: normal mode
(`run_with_sink`) and reverse mode (`run_reverse_with_sink`). -/
inductive TransferMode where
  | normal
  | reverse
  deriving DecidableEq, Repr

/-- Sender-side failures surfaced by `send_file` / `wait_for_done`. -/
inductive SendError where
  | ackReadFailed
  | receiverRejected (ack : List Char)
  | localFileChanged (sent declared : Nat)
  | connectionLost
  | tailAckMismatch (msg : List Char)
  deriving DecidableEq, Repr

/-- `send_file` from sender.rs, after the encrypted channel is established:
write the header, read the ACK frame (a read failure propagates), require
its trimmed plaintext to equal `OK`, then stream the file in `CHUNK_SIZE`
chunks and require the byte count to match the declared size.  `ackResult`
is the decrypted ACK plaintext (`none` models a failed read), `content` the
bytes the file yields, `declaredSize` the size recorded in the header.
Returns the list of plaintext data frames emitted. -/
def send_file (ackResult : Option (List Char)) (content : List Nat)
    (declaredSize : Nat) : Except SendError (List (List Nat)) :=
  match ackResult with
  | none => .error .ackReadFailed
  | some ack =>
    if trimChars ack ≠ ['O', 'K'] then .error (.receiverRejected ack)
    else
      let frames := chunksOf CHUNK_SIZE content
      let sent := content.length
      if sent ≠ declaredSize then .error (.localFileChanged sent declaredSize)
      else .ok frames

/-- `wait_for_done` from sender.rs: read one more encrypted frame (a read
failure or closed channel is an error, never silent success) and require its
trimmed plaintext to equal `DONE`. -/
def wait_for_done (doneResult : Option (List Char)) : Except SendError Unit :=
  match doneResult with
  | none => .error .connectionLost
  | some msg =>
    if trimChars msg = ['D', 'O', 'N', 'E'] then .ok ()
    else .error (.tailAckMismatch (trimChars msg))

/-- The tail of both sender runs (`run_with_sink` and
`run_reverse_with_sink`): `send_file`, then `send_stream.finish()`, then
`wait_for_done`.  The mode changes only connection setup, not this logic. -/
def sender_session (_mode : TransferMode) (ackResult : Option (List Char))
    (doneResult : Option (List Char)) (content : List Nat)
    (declaredSize : Nat) : Except SendError (List (List Nat)) := do
  let frames ← send_file ackResult content declaredSize
  let _ ← wait_for_done doneResult
  pure frames

/-! ## Receiver transfer logic (src/crates/core/src/receiver.rs) -/

/-- One iteration of the receiver's data loop: either the encrypted read
fails (stream error or decryption failure), or it yields a plaintext frame,
in which case the following `file.write_all` may itself fail. -/
inductive LoopEvent where
  | readFail
  | frame (data : List Nat) (writeOk : Bool)
  deriving DecidableEq, Repr

/-- The receiver's `while received < header.size` loop: read a frame (a read
failure, or running out of stream, aborts), stop early on an empty frame,
otherwise append the plaintext to the temp file and keep counting.  Returns
the received byte count and the bytes written to the temp file. -/
def recvLoop (size : Nat) (events : List LoopEvent) (received : Nat)
    (content : List Nat) : Option (Nat × List Nat) :=
  if received < size then
    match events with
    | [] => none
    | .readFail :: _ => none
    | .frame data writeOk :: rest =>
      if data.isEmpty then some (received, content)
      else if writeOk then recvLoop size rest (received + data.length)
        (content ++ data)
      else none
  else some (received, content)

/-- Failures of the receiver's file-receive block. -/
inductive RecvError where
  | readOrWriteFailed
  | flushFailed
  | incomplete (got want : Nat)
  | checksumMismatch
  | renameFailed
  | doneSendFailed
  deriving DecidableEq, Repr

/-- Observable file-system outcome of one receive at its destination
directory: whether the uniquified `.part` temp file still exists, whether a
file now exists at the would-be final destination path, and the bytes of
that final file when it does. -/
structure FsOutcome where
  tempExists : Bool
  finalExists : Bool
  finalContent : List Nat
  deriving DecidableEq, Repr

/-- The body of the receiver's `receive_result` block, before the cleanup
arm.  The temp file was created just before the block, so it starts out
existing and the final path does not.  In order: run the data loop, flush,
check the byte count against `header.size`, compare the hex BLAKE3 digest
with `header.blake3`, rename temp to final, then send `DONE\n`.  `hash`
abstracts the blake3 crate's incremental hex digest; `flushOk`, `renameOk`
and `doneOk` model the fallibility of flush, rename and the final encrypted
write. -/
def receive_block (hash : List Nat → String) (size : Nat) (blake3 : String)
    (events : List LoopEvent) (flushOk renameOk doneOk : Bool) :
    Except RecvError Unit × FsOutcome :=
  match recvLoop size events 0 [] with
  | none => (.error .readOrWriteFailed, ⟨true, false, []⟩)
  | some (received, content) =>
    if !flushOk then (.error .flushFailed, ⟨true, false, []⟩)
    else if received ≠ size then
      (.error (.incomplete received size), ⟨true, false, []⟩)
    else if hash content ≠ blake3 then
      (.error .checksumMismatch, ⟨true, false, []⟩)
    else if !renameOk then (.error .renameFailed, ⟨true, false, []⟩)
    else if !doneOk then (.error .doneSendFailed, ⟨false, true, content⟩)
    else (.ok (), ⟨false, true, content⟩)

/-- The cleanup arm after the block: `if let Err(err) = receive_result`,
delete the temp file (ignoring the deletion's own result) and return the
error. -/
def cleanup (r : Except RecvError Unit × FsOutcome) :
    Except RecvError Unit × FsOutcome :=
  match r with
  | (.error e, fs) => (.error e, { fs with tempExists := false })
  | (.ok (), fs) => (.ok (), fs)

/-- The whole fallible part of `receive_file` from the creation of the temp
file onward: the block followed by its cleanup arm. -/
def receive_file (hash : List Nat → String) (size : Nat) (blake3 : String)
    (events : List LoopEvent) (flushOk renameOk doneOk : Bool) :
    Except RecvError Unit × FsOutcome :=
  cleanup (receive_block hash size blake3 events flushOk renameOk doneOk)

/-! ## Unique destination naming (src/crates/core/src/receiver.rs) -/

/-- A decimal digit character, as produced by Rust's integer formatting:
the ASCII digits start at code 48. -/
def decDigit (d : Nat) : Char :=
  if d < 10 then Char.ofNat (48 + d) else Char.ofNat 32

/-- Decimal rendering of a natural number, as `format!("{}", i)`. -/
def natDecimal (n : Nat) : List Char :=
  if _h : n < 10 then [decDigit n]
  else natDecimal (n / 10) ++ [decDigit (n % 10)]
  termination_by n
  decreasing_by exact Nat.div_lt_self (by omega) (by omega)

/-- Decimal value of a character list; left inverse of `natDecimal`. -/
def decVal (cs : List Char) : Nat :=
  cs.foldl (fun a c => a * 10 + (c.toNat - 48)) 0

/-- Index of the last `'.'` in a file name, mirroring the `rposition` used
by Rust's `Path::file_stem` / `Path::extension`. -/
def lastDotPos (cs : List Char) : Option Nat :=
  match cs.reverse.findIdx? (· = '.') with
  | none => none
  | some j => some (cs.length - 1 - j)

/-- Rust's `file_stem` / `extension` split of a file name, with the
extension carrying its leading dot as rebuilt by `format!(".{}", e)`.
A name with no dot, a leading-dot-only name, or `".."` has no extension. -/
def splitExt (cs : List Char) : List Char × List Char :=
  if cs = ['.', '.'] then (cs, [])
  else
    match lastDotPos cs with
    | none => (cs, [])
    | some 0 => (cs, [])
    | some i => (cs.take i, '.' :: cs.drop (i + 1))

/-- The collision-avoiding candidate `format!("{} ({}){}", stem, i, ext)`. -/
def candName (stem ext : List Char) (i : Nat) : List Char :=
  stem ++ (' ' :: '(' :: natDecimal i) ++ (')' :: ext)

/-- The `for i in 1u32..` search of `unique_path`, with enough fuel to
cover every occupied name plus one. -/
def searchFrom (occupied : List (List Char)) (stem ext : List Char)
    (i fuel : Nat) : List Char :=
  match fuel with
  | 0 => []
  | fuel' + 1 =>
    let cand := candName stem ext i
    if cand ∉ occupied then cand else searchFrom occupied stem ext (i + 1) fuel'

/-- `unique_path` from receiver.rs over a directory modelled by the list of
names it contains: return `name` itself when free, otherwise the first
`"stem (i)ext"` (for i = 1, 2, ...) that does not collide. -/
def unique_path (occupied : List (List Char)) (name : List Char) :
    List Char :=
  if name ∉ occupied then name
  else searchFrom occupied (splitExt name).1 (splitExt name).2 1
    (occupied.length + 1)

/-! ## Embedding controller (src/crates/android-bindings/src/lib.rs) -/

/-- The queued event record; only the fields the claims consult. -/
structure EventRecord where
  kind : String
  message : Option String
  value : Option String
  deriving DecidableEq, Repr

/-- `TransferEventRecord::status(message)`. -/
def statusRecord (msg : String) : EventRecord :=
  { kind := "status", message := some msg, value := none }

/-- The observable state of a `TransferController`: its bounded event queue,
the currently running session task (by id), and the ids of tasks that have
been aborted. -/
structure Controller where
  queue : List EventRecord
  task : Option Nat
  aborted : List Nat
  deriving DecidableEq, Repr

/-- A freshly created controller: empty queue, no task. -/
def newController : Controller := ⟨[], none, []⟩

/-- `TransferController::cancel`: when a session task is running, abort it
and enqueue a final status event; otherwise do nothing. -/
def cancel (c : Controller) : Controller :=
  match c.task with
  | some h =>
    { queue := c.queue ++ [statusRecord "Transfer canceled by user."]
      task := none
      aborted := c.aborted ++ [h] }
  | none => c

/-- `TransferController::start_task`: first cancel any running session, then
enqueue the `"Transfer started."` status, then spawn the new session task.
Events the spawned session produces are appended later, behind this one. -/
def start_task (c : Controller) (newId : Nat) : Controller :=
  let c' := cancel c
  { queue := c'.queue ++ [statusRecord "Transfer started."]
    task := some newId
    aborted := c'.aborted }

/-- `start_send_wait` delegates to `start_task` with the normal-mode sender
future. -/
def start_send_wait (c : Controller) (newId : Nat) : Controller :=
  start_task c newId

/-- `start_send_to_ticket` delegates to `start_task` with the reverse-mode
sender future. -/
def start_send_to_ticket (c : Controller) (newId : Nat) : Controller :=
  start_task c newId

/-- `start_receive_target` delegates to `start_task` with the connecting
receiver future. -/
def start_receive_target (c : Controller) (newId : Nat) : Controller :=
  start_task c newId

/-- `start_receive_listen` delegates to `start_task` with the listening
receiver future. -/
def start_receive_listen (c : Controller) (newId : Nat) : Controller :=
  start_task c newId

/-- `TransferController::poll_event`: pop the front of the queue. -/
def poll_event (c : Controller) : Option EventRecord × Controller :=
  match c.queue with
  | [] => (none, c)
  | e :: rest => (some e, { c with queue := rest })

/-! ## Theorems: ticket codec -/

theorem dropTag_append (tag rest : List Char) :
    dropTag tag (tag ++ rest) = some rest := by
  simp [dropTag, List.isPrefixOf_iff_prefix]

/-- Claim C2: for every node address whose relay URL is present or with at
least one useful direct address, deserializing the serialized ticket
succeeds and yields an address with the same node id and relay URL whose
direct addresses are exactly the useful-filtered subset.  The serde_json
and base64url codecs are external crates; the round-trip facts the code
relies on at the encoded value are hypotheses. -/
theorem ticket_roundtrip_filters
    (jsonEnc : NodeAddr → List Nat) (jsonDec : List Nat → Option NodeAddr)
    (b64enc : List Nat → List Char) (b64dec : List Char → Option (List Nat))
    (addr : NodeAddr)
    (hjson : jsonDec (jsonEnc (filter_node_addr addr))
      = some (filter_node_addr addr))
    (hb64 : b64dec (b64enc (jsonEnc (filter_node_addr addr)))
      = some (jsonEnc (filter_node_addr addr)))
    (huseful : addr.relay_url.isSome = true
      ∨ addr.direct_addresses.filter is_useful_address ≠ []) :
    deserialize jsonDec b64dec (serialize jsonEnc b64enc addr)
      = .ok (filter_node_addr addr)
    ∧ (filter_node_addr addr).node_id = addr.node_id
    ∧ (filter_node_addr addr).relay_url = addr.relay_url
    ∧ (filter_node_addr addr).direct_addresses
      = addr.direct_addresses.filter is_useful_address := by
  refine ⟨?_, rfl, rfl, rfl⟩
  unfold deserialize serialize
  simp only [dropTag_append, hb64, hjson]
  have hcheck : ((filter_node_addr addr).direct_addresses.isEmpty
      && (filter_node_addr addr).relay_url.isNone) = false := by
    rcases huseful with hrelay | hdirect
    · rcases hurl : addr.relay_url with _ | u
      · rw [hurl] at hrelay
        simp at hrelay
      · simp [filter_node_addr, hurl]
    · have h1 : (List.filter is_useful_address addr.direct_addresses).isEmpty
          = false := by
        cases hfe : (List.filter is_useful_address
            addr.direct_addresses).isEmpty
        · rfl
        · exact absurd (List.isEmpty_iff.mp hfe) hdirect
      simp [filter_node_addr, h1]
  simp [hcheck]

/-- Witness for C2, on the literal S6 input: the round trip keeps exactly
`10.0.0.4:4`. -/
theorem ticket_roundtrip_filters_witness :
    deserialize s6JsonDec s6B64dec (serialize s6JsonEnc s6B64enc s6Addr)
      = .ok (filter_node_addr s6Addr)
    ∧ (filter_node_addr s6Addr).direct_addresses = [⟨.v4 10 0 0 4, 4⟩] :=
  ⟨(ticket_roundtrip_filters s6JsonEnc s6JsonDec s6B64enc s6B64dec s6Addr
      rfl rfl (Or.inr (by decide))).1, by decide⟩

/-- Counterexample to claim C7 as stated: a ticket that passes the tag
check, base64url-decodes and JSON-parses to an address whose only direct
address is loopback (so the useful-filtered subset is empty) and whose
relay URL is absent is nevertheless accepted: `deserialize` tests the raw
`direct_addresses` list for emptiness, never the filtered subset. -/
theorem deserialize_accepts_filtered_empty :
    deserialize (fun _ => some loopbackOnlyAddr) (fun _ => some [])
        ticketTag = .ok loopbackOnlyAddr
    ∧ loopbackOnlyAddr.relay_url = none
    ∧ loopbackOnlyAddr.direct_addresses.filter is_useful_address = [] := by
  refine ⟨?_, rfl, by decide⟩
  have h : dropTag ticketTag ticketTag = some [] := by
    have := dropTag_append ticketTag []
    simpa using this
  simp [deserialize, h, loopbackOnlyAddr]

/-- Claim C7 amended: for every ticket that passes the tag check,
base64url-decodes and JSON-parses into an address, `deserialize` errors if
and only if the relay URL is absent and the raw (unfiltered) direct-address
list is empty. -/
theorem deserialize_error_iff_raw_empty
    (jsonDec : List Nat → Option NodeAddr)
    (b64dec : List Char → Option (List Nat))
    (ticket data : List Char) (bytes : List Nat) (addr : NodeAddr)
    (hdrop : dropTag ticketTag ticket = some data)
    (hb64 : b64dec data = some bytes)
    (hjson : jsonDec bytes = some addr) :
    ((deserialize jsonDec b64dec ticket).isOk = false
      ↔ addr.direct_addresses = [] ∧ addr.relay_url = none)
    ∧ ((deserialize jsonDec b64dec ticket).isOk = true
      → deserialize jsonDec b64dec ticket = .ok addr) := by
  unfold deserialize
  simp only [hdrop, hb64, hjson]
  by_cases hempty : addr.direct_addresses = []
  · by_cases hrelay : addr.relay_url = none
    · simp [hempty, hrelay, Except.isOk, Except.toBool]
    · simp [hempty, hrelay, Except.isOk, Except.toBool,
        Option.isNone_iff_eq_none]
  · simp [hempty, Except.isOk, Except.toBool, List.isEmpty_iff]

/-- Witness for the amended C7: the loopback-only no-relay ticket parses
yet is rejected by no check, and the round of hypotheses is dischargeable. -/
theorem deserialize_error_iff_raw_empty_witness :
    (deserialize (fun _ => some loopbackOnlyAddr) (fun _ => some [])
      ticketTag).isOk = true :=
  by
    have h := deserialize_error_iff_raw_empty
      (fun _ => some loopbackOnlyAddr) (fun _ => some []) ticketTag [] []
      loopbackOnlyAddr (by simpa using dropTag_append ticketTag []) rfl rfl
    rcases hok : (deserialize (fun _ => some loopbackOnlyAddr)
        (fun _ => some []) ticketTag).isOk with _ | _
    · exfalso
      have := h.1.mp hok
      simp [loopbackOnlyAddr] at this
    · rfl

/-! ## Theorems: frame codec -/

/-- Claim C5: `send_frame` fails exactly when the payload exceeds 65,535
bytes and otherwise writes a 4-byte big-endian length followed by the
payload; `recv_frame` reports frame-too-large exactly when the decoded
length prefix exceeds 65,535; a length-0 frame is legal and yields the
empty buffer. -/
theorem frame_codec_limits :
    (∀ data : List Nat, (send_frame data).isOk = true ↔ data.length ≤ 65535)
    ∧ (∀ data : List Nat, data.length ≤ 65535 →
        send_frame data = .ok (be32 data.length ++ data))
    ∧ (∀ input : List Nat,
        recv_frame input = .error .frameTooLarge
          ↔ ∃ b0 b1 b2 b3 rest, input = b0 :: b1 :: b2 :: b3 :: rest
              ∧ beVal b0 b1 b2 b3 > 65535)
    ∧ (∀ rest : List Nat, recv_frame (be32 0 ++ rest) = .ok ([], rest)) := by
  refine ⟨?_, ?_, ?_, ?_⟩
  · intro data
    by_cases h : data.length > 65535
    · simp only [send_frame, NOISE_MAX_MSG, if_pos h, Except.isOk,
        Except.toBool]
      constructor
      · intro hfalse
        exact absurd hfalse (by simp)
      · intro hle
        omega
    · simp only [send_frame, NOISE_MAX_MSG, if_neg h, Except.isOk,
        Except.toBool]
      constructor
      · intro _
        omega
      · intro _
        trivial
  · intro data h
    have h' : ¬data.length > 65535 := by omega
    simp [send_frame, NOISE_MAX_MSG, h']
  · intro input
    match input with
    | [] => simp [recv_frame]
    | [b0] => simp [recv_frame]
    | [b0, b1] => simp [recv_frame]
    | [b0, b1, b2] => simp [recv_frame]
    | b0 :: b1 :: b2 :: b3 :: rest =>
      by_cases hlen : beVal b0 b1 b2 b3 > 65535
      · simp only [recv_frame, NOISE_MAX_MSG]
        rw [if_pos hlen]
        simp only [true_iff]
        exact ⟨b0, b1, b2, b3, rest, rfl, hlen⟩
      · simp only [recv_frame, NOISE_MAX_MSG]
        rw [if_neg hlen]
        constructor
        · intro hcontra
          by_cases hshort : rest.length < beVal b0 b1 b2 b3
          · rw [if_pos hshort] at hcontra
            exact absurd hcontra (by simp)
          · rw [if_neg hshort] at hcontra
            exact absurd hcontra (by simp)
        · rintro ⟨a0, a1, a2, a3, arest, heq, hgt⟩
          injection heq with e0 heq
          injection heq with e1 heq
          injection heq with e2 heq
          injection heq with e3 _
          subst e0; subst e1; subst e2; subst e3
          omega
  · intro rest
    simp [recv_frame, be32, beVal, NOISE_MAX_MSG]

/-- Witness for C5: a one-byte frame round-trips through the wire encoding,
and the zero-length frame decodes to the empty buffer. -/
theorem frame_codec_limits_witness :
    send_frame [7] = .ok [0, 0, 0, 1, 7]
    ∧ recv_frame [0, 0, 0, 0] = .ok ([], []) := by
  constructor
  · have h := frame_codec_limits.2.1 [7] (by norm_num)
    simpa [be32] using h
  · have h := frame_codec_limits.2.2.2 []
    simpa [be32] using h

/-! ## Theorems: verification code -/

theorem hexDigit_mem_hexChars {d : Nat} (hd : d < 16) :
    hexDigit d ∈ hexChars := by
  have hall : ∀ f : Fin 16, hexDigit f.val ∈ hexChars := by decide
  exact hall ⟨d, hd⟩

theorem byteHex_mem_hexChars {b : Nat} (hb : b < 256) :
    ∀ c ∈ byteHex b, c ∈ hexChars := by
  intro c hc
  have hdiv : b / 16 < 16 := by omega
  have hmod : b % 16 < 16 := Nat.mod_lt _ (by omega)
  simp only [byteHex, List.mem_cons, List.not_mem_nil, or_false] at hc
  rcases hc with hc | hc
  · subst hc
    exact hexDigit_mem_hexChars hdiv
  · subst hc
    exact hexDigit_mem_hexChars hmod

/-- Claim C4: for a transcript hash of at least four bytes, the
verification code is the lowercase hex of bytes 0..2, a hyphen, then the
lowercase hex of bytes 2..4 — nine characters, eight of them lowercase hex
digits — and the initiator and the responder derive the code by the same
function of the transcript hash, so equal transcript hashes give identical
codes. -/
theorem verification_code_spec (b0 b1 b2 b3 : Nat) (rest : List Nat)
    (h0 : b0 < 256) (h1 : b1 < 256) (h2 : b2 < 256) (h3 : b3 < 256) :
    initiatorCode (b0 :: b1 :: b2 :: b3 :: rest)
      = responderCode (b0 :: b1 :: b2 :: b3 :: rest)
    ∧ verification_code (b0 :: b1 :: b2 :: b3 :: rest)
      = byteHex b0 ++ byteHex b1 ++ ('-' :: (byteHex b2 ++ byteHex b3))
    ∧ (verification_code (b0 :: b1 :: b2 :: b3 :: rest)).length = 9
    ∧ ∀ c ∈ verification_code (b0 :: b1 :: b2 :: b3 :: rest),
        c = '-' ∨ c ∈ hexChars := by
  have hcode : verification_code (b0 :: b1 :: b2 :: b3 :: rest)
      = byteHex b0 ++ byteHex b1 ++ ('-' :: (byteHex b2 ++ byteHex b3)) := by
    simp [verification_code, hexEncode]
  refine ⟨rfl, hcode, ?_, ?_⟩
  · rw [hcode]
    simp [byteHex]
  · intro c hc
    rw [hcode] at hc
    simp only [List.mem_append, List.mem_cons] at hc
    rcases hc with (hc | hc) | hc | hc
    · exact Or.inr (byteHex_mem_hexChars h0 c hc)
    · exact Or.inr (byteHex_mem_hexChars h1 c hc)
    · exact Or.inl hc
    · rcases hc with hc | hc
      · exact Or.inr (byteHex_mem_hexChars h2 c hc)
      · exact Or.inr (byteHex_mem_hexChars h3 c hc)

/-- Witness for C4 at the concrete transcript hash `[0xab, 0x01, 0x02,
0x03]`: both sides display `ab01-0203`. -/
theorem verification_code_spec_witness :
    initiatorCode [171, 1, 2, 3] = responderCode [171, 1, 2, 3]
    ∧ verification_code [171, 1, 2, 3]
      = ['a', 'b', '0', '1', '-', '0', '2', '0', '3'] := by
  have h := verification_code_spec 171 1 2 3 [] (by norm_num) (by norm_num)
    (by norm_num) (by norm_num)
  exact ⟨h.1, by rw [h.2.1]; rfl⟩

/-! ## Theorems: sender acknowledgements -/

/-- Claim C3: in both normal and reverse mode, the sender fails with
receiver-rejected unless the frame after the header trims to `OK`, and
after streaming and finishing fails with tail-ack-mismatch unless one more
frame trims to `DONE`; a channel close or read failure at the `DONE` point
is an error, never silent success. -/
theorem sender_ack_and_done (mode : TransferMode)
    (ackResult doneResult : Option (List Char)) (content : List Nat)
    (declaredSize : Nat) :
    ((sender_session mode ackResult doneResult content declaredSize).isOk
        = true
      ↔ (∃ ack, ackResult = some ack ∧ trimChars ack = ['O', 'K'])
        ∧ content.length = declaredSize
        ∧ (∃ msg, doneResult = some msg
            ∧ trimChars msg = ['D', 'O', 'N', 'E']))
    ∧ (∀ ack, ackResult = some ack → trimChars ack ≠ ['O', 'K'] →
        sender_session mode ackResult doneResult content declaredSize
          = .error (.receiverRejected ack))
    ∧ (doneResult = none →
        (∃ ack, ackResult = some ack ∧ trimChars ack = ['O', 'K']) →
        content.length = declaredSize →
        sender_session mode ackResult doneResult content declaredSize
          = .error .connectionLost)
    ∧ (∀ msg, doneResult = some msg →
        trimChars msg ≠ ['D', 'O', 'N', 'E'] →
        (∃ ack, ackResult = some ack ∧ trimChars ack = ['O', 'K']) →
        content.length = declaredSize →
        sender_session mode ackResult doneResult content declaredSize
          = .error (.tailAckMismatch (trimChars msg))) := by
  cases ackResult with
  | none =>
    refine ⟨?_, ?_, ?_, ?_⟩ <;>
      simp [sender_session, send_file, Except.isOk, Except.toBool,
        Bind.bind, Except.bind, Functor.map, Except.map, pure, Except.pure]
  | some ack =>
    by_cases hok : trimChars ack = ['O', 'K']
    · by_cases hsize : content.length = declaredSize
      · cases doneResult with
        | none =>
          refine ⟨?_, ?_, ?_, ?_⟩ <;>
            simp [sender_session, send_file, wait_for_done, hok, hsize,
              Except.isOk, Except.toBool, Bind.bind, Except.bind,
              Functor.map, Except.map, pure, Except.pure]
        | some msg =>
          by_cases hdone : trimChars msg = ['D', 'O', 'N', 'E']
          · refine ⟨?_, ?_, ?_, ?_⟩ <;>
              simp [sender_session, send_file, wait_for_done, hok, hsize,
                hdone, Except.isOk, Except.toBool, Bind.bind, Except.bind,
                Functor.map, Except.map, pure, Except.pure]
          · refine ⟨?_, ?_, ?_, ?_⟩ <;>
              simp [sender_session, send_file, wait_for_done, hok, hsize,
                hdone, Except.isOk, Except.toBool, Bind.bind, Except.bind,
                Functor.map, Except.map, pure, Except.pure]
      · refine ⟨?_, ?_, ?_, ?_⟩ <;>
          simp [sender_session, send_file, wait_for_done, hok, hsize,
            Except.isOk, Except.toBool, Bind.bind, Except.bind,
            Functor.map, Except.map, pure, Except.pure]
    · refine ⟨?_, ?_, ?_, ?_⟩ <;>
        simp [sender_session, send_file, wait_for_done, hok,
          Except.isOk, Except.toBool, Bind.bind, Except.bind,
          Functor.map, Except.map, pure, Except.pure]

/-- Witness for C3: a receiver that answers `NO` makes the sender fail with
receiver-rejected, in reverse mode at a concrete input. -/
theorem sender_ack_and_done_witness :
    sender_session .reverse (some ['N', 'O']) (some ['D', 'O', 'N', 'E'])
      [] 0 = .error (.receiverRejected ['N', 'O']) :=
  (sender_ack_and_done .reverse (some ['N', 'O'])
    (some ['D', 'O', 'N', 'E']) [] 0).2.1 ['N', 'O'] rfl (by decide)

/-! ## Theorems: receiver cleanup -/

theorem recvLoop_terminated {size received : Nat} (h : ¬received < size)
    (events : List LoopEvent) (content : List Nat) :
    recvLoop size events received content = some (received, content) := by
  cases events with
  | nil => simp [recvLoop, h]
  | cons e rest =>
    cases e with
    | readFail => simp [recvLoop, h]
    | frame data writeOk => simp [recvLoop, h]

theorem cleanup_parts (r : Except RecvError Unit × FsOutcome) :
    (cleanup r).1 = r.1
    ∧ ((cleanup r).1.isOk = false → (cleanup r).2.tempExists = false)
    ∧ (cleanup r).2.finalExists = r.2.finalExists := by
  rcases r with ⟨res, fs⟩
  cases res with
  | error e => simp [cleanup]
  | ok u => simp [cleanup, Except.isOk, Except.toBool]

theorem receive_block_final_iff (hash : List Nat → String) (size : Nat)
    (blake3 : String) (events : List LoopEvent)
    (flushOk renameOk doneOk : Bool) :
    ((receive_block hash size blake3 events flushOk renameOk doneOk).2.finalExists
        = true
      ↔ (receive_block hash size blake3 events flushOk renameOk doneOk).1
          = .ok ()
        ∨ (receive_block hash size blake3 events flushOk renameOk doneOk).1
          = .error .doneSendFailed) := by
  unfold receive_block
  rcases recvLoop size events 0 [] with _ | ⟨received, content⟩
  · simp
  · cases flushOk
    · simp
    · by_cases hsz : received = size
      · by_cases hhash : hash content = blake3
        · cases renameOk
          · simp [hsz, hhash]
          · cases doneOk <;> simp [hsz, hhash]
        · simp [hsz, hhash]
      · simp [hsz]

/-- Counterexample to claim C1 as stated: with a zero-size header whose
digest matches, an immediately ending stream, a successful flush and
rename, but a failing final `DONE` write, the file-receive block fails —
yet the rename has already happened, so a new file does exist at the
would-be final destination path. -/
theorem receive_done_failure_leaves_final_file :
    (receive_file (fun _ => "h") 0 "h" [] true true false).1.isOk = false
    ∧ (receive_file (fun _ => "h") 0 "h" [] true true false).2.finalExists
      = true := by
  constructor <;> rfl

/-- Claim C1 amended: whenever the receiver's file-receive block fails, the
uniquified `.part` temp file is deleted before the error is returned; and a
file exists at the would-be final destination exactly when the failure was
the final `DONE` acknowledgement write, which happens after the (already
verified) rename — for every earlier failure the rename has not occurred
and no file exists at the final path. -/
theorem receive_failure_cleanup (hash : List Nat → String) (size : Nat)
    (blake3 : String) (events : List LoopEvent)
    (flushOk renameOk doneOk : Bool)
    (hfail : (receive_file hash size blake3 events flushOk renameOk
      doneOk).1.isOk = false) :
    (receive_file hash size blake3 events flushOk renameOk
      doneOk).2.tempExists = false
    ∧ ((receive_file hash size blake3 events flushOk renameOk
          doneOk).2.finalExists = true
        ↔ (receive_file hash size blake3 events flushOk renameOk doneOk).1
            = .error .doneSendFailed) := by
  have hclean := cleanup_parts
    (receive_block hash size blake3 events flushOk renameOk doneOk)
  have hfin := receive_block_final_iff hash size blake3 events flushOk
    renameOk doneOk
  refine ⟨hclean.2.1 hfail, ?_⟩
  unfold receive_file at hfail ⊢
  rw [hclean.2.2, hclean.1, hfin]
  constructor
  · rintro (hok | hdone)
    · rw [hclean.1] at hfail
      rw [hok] at hfail
      simp [Except.isOk, Except.toBool] at hfail
    · exact hdone
  · intro hdone
    exact Or.inr hdone

/-- Witness for the amended C1: a stream that ends before any data of a
one-byte file arrives fails the block, and afterwards neither the temp
file nor a final file exists. -/
theorem receive_failure_cleanup_witness :
    (receive_file (fun _ => "h") 1 "h" [] true true true).2.tempExists
        = false
    ∧ ((receive_file (fun _ => "h") 1 "h" [] true true true).2.finalExists
          = true
        ↔ (receive_file (fun _ => "h") 1 "h" [] true true true).1
            = .error .doneSendFailed) :=
  receive_failure_cleanup (fun _ => "h") 1 "h" [] true true true rfl

/-! ## Theorems: zero-byte transfer -/

theorem chunksOf_nil (k : Nat) : chunksOf k [] = [] := by
  unfold chunksOf
  simp

/-- Claim C9: a zero-byte transfer completes with no data frames.  The
sender's chunk loop emits no frames and the 0 bytes sent match the declared
size 0; the receiver with a zero-size header consumes nothing from the
stream (its result is the same for every stream script), renames an empty
final file into place, and verification passes whenever the header digest
is the digest of empty input. -/
theorem zero_byte_transfer (mode : TransferMode)
    (hash : List Nat → String) (events : List LoopEvent) :
    sender_session mode (some ['O', 'K', '\n'])
        (some ['D', 'O', 'N', 'E', '\n']) [] 0 = .ok []
    ∧ receive_file hash 0 (hash []) events true true true
      = (.ok (), ⟨false, true, []⟩) := by
  constructor
  · have hack : trimChars ['O', 'K', '\n'] = ['O', 'K'] := by decide
    have hdone : trimChars ['D', 'O', 'N', 'E', '\n']
        = ['D', 'O', 'N', 'E'] := by decide
    simp [sender_session, send_file, wait_for_done, hack, hdone,
      chunksOf_nil, Bind.bind, Except.bind, Functor.map, Except.map,
      pure, Except.pure]
  · have hloop : recvLoop 0 events 0 [] = some (0, []) :=
      recvLoop_terminated (by omega) events []
    simp [receive_file, cleanup, receive_block, hloop]

/-! ## Theorems: embedding controller -/

/-- Counterexample to claim C8 as stated: cancelling a running session
enqueues a status event whose message is `"Transfer canceled by user."` —
no event with the message `"Transfer canceled"` is ever enqueued. -/
theorem cancel_status_text_differs :
    (cancel ⟨[], some 7, []⟩).queue
      = [statusRecord "Transfer canceled by user."]
    ∧ ∀ e ∈ (cancel ⟨[], some 7, []⟩).queue,
        e.message ≠ some "Transfer canceled" := by
  constructor
  · rfl
  · decide

/-- Claim C8 amended: cancelling a controller with a running session aborts
the session task and enqueues a final status event whose message is
`"Transfer canceled by user."`; every start operation first performs this
cancellation (its queue carries the cancellation status before the started
status, and the old task lands in the aborted list) before launching the
new session task. -/
theorem cancel_and_start_semantics (c : Controller) (h : Nat)
    (htask : c.task = some h) :
    (cancel c).task = none
    ∧ (cancel c).aborted = c.aborted ++ [h]
    ∧ (cancel c).queue
      = c.queue ++ [statusRecord "Transfer canceled by user."]
    ∧ ∀ newId,
        (start_task c newId).queue
          = c.queue ++ [statusRecord "Transfer canceled by user.",
              statusRecord "Transfer started."]
        ∧ (start_task c newId).task = some newId
        ∧ (start_task c newId).aborted = c.aborted ++ [h] := by
  simp [cancel, start_task, htask]

/-- Witness for the amended C8 on a concrete controller running task 7. -/
theorem cancel_and_start_semantics_witness :
    (cancel ⟨[], some 7, []⟩).task = none
    ∧ (cancel ⟨[], some 7, []⟩).aborted = [7]
    ∧ (start_task ⟨[], some 7, []⟩ 8).queue
      = [statusRecord "Transfer canceled by user.",
         statusRecord "Transfer started."] := by
  have h := cancel_and_start_semantics ⟨[], some 7, []⟩ 7 rfl
  refine ⟨h.1, by simpa using h.2.1, by simpa using (h.2.2.2 8).1⟩

/-- Claim C10: every start operation enqueues the `"Transfer started."`
status before the session task can produce any event, so on an idle
controller with an empty queue the first polled event is that record. -/
theorem start_enqueues_started_first (c : Controller) (newId : Nat)
    (hqueue : c.queue = []) (htask : c.task = none) :
    (poll_event (start_send_wait c newId)).1
      = some (statusRecord "Transfer started.")
    ∧ (poll_event (start_send_to_ticket c newId)).1
      = some (statusRecord "Transfer started.")
    ∧ (poll_event (start_receive_target c newId)).1
      = some (statusRecord "Transfer started.")
    ∧ (poll_event (start_receive_listen c newId)).1
      = some (statusRecord "Transfer started.")
    ∧ (start_task c newId).queue = [statusRecord "Transfer started."] := by
  simp [start_send_wait, start_send_to_ticket, start_receive_target,
    start_receive_listen, start_task, cancel, poll_event, htask, hqueue]

/-- Witness for C10 on a freshly created controller. -/
theorem start_enqueues_started_first_witness :
    (poll_event (start_send_wait newController 1)).1
      = some (statusRecord "Transfer started.") :=
  (start_enqueues_started_first newController 1 rfl rfl).1

/-! ## Theorems: unique destination naming -/

theorem decDigit_toNat {d : Nat} (h : d < 10) : (decDigit d).toNat = 48 + d := by
  interval_cases d <;> rfl

theorem natDecimal_lt {n : Nat} (h : n < 10) : natDecimal n = [decDigit n] := by
  unfold natDecimal
  simp [h]

theorem natDecimal_ge {n : Nat} (h : ¬n < 10) :
    natDecimal n = natDecimal (n / 10) ++ [decDigit (n % 10)] := by
  conv_lhs => rw [natDecimal]
  simp [h]

theorem decVal_append_digit (cs : List Char) (c : Char) :
    decVal (cs ++ [c]) = decVal cs * 10 + (c.toNat - 48) := by
  simp [decVal, List.foldl_append]

theorem decVal_natDecimal (n : Nat) : decVal (natDecimal n) = n := by
  induction n using Nat.strong_induction_on with
  | _ n ih =>
    by_cases h : n < 10
    · rw [natDecimal_lt h]
      simp [decVal, decDigit_toNat h]
    · rw [natDecimal_ge h, decVal_append_digit,
        ih (n / 10) (Nat.div_lt_self (by omega) (by omega)),
        decDigit_toNat (Nat.mod_lt _ (by omega))]
      omega

theorem natDecimal_injective : Function.Injective natDecimal := by
  intro a b hab
  have ha := decVal_natDecimal a
  have hb := decVal_natDecimal b
  rw [← ha, ← hb, hab]

theorem candName_inj (stem ext : List Char) :
    Function.Injective (candName stem ext) := by
  intro i j hij
  unfold candName at hij
  rw [List.append_assoc, List.append_assoc] at hij
  have h1 := List.append_cancel_left hij
  simp only [List.cons_append] at h1
  injection h1 with _ h1
  injection h1 with _ h1
  exact natDecimal_injective (List.append_cancel_right h1)

theorem exists_free_cand (occupied : List (List Char))
    (stem ext : List Char) :
    ∃ t, t ≤ occupied.length ∧ candName stem ext (1 + t) ∉ occupied := by
  by_contra hcon
  push_neg at hcon
  have hsub : (List.range (occupied.length + 1)).map
      (fun t => candName stem ext (1 + t)) ⊆ occupied := by
    intro x hx
    simp only [List.mem_map, List.mem_range] at hx
    obtain ⟨t, ht, rfl⟩ := hx
    exact hcon t (by omega)
  have hinj : Function.Injective (fun t => candName stem ext (1 + t)) := by
    intro a b hab
    have := candName_inj stem ext hab
    omega
  have hnodup : ((List.range (occupied.length + 1)).map
      (fun t => candName stem ext (1 + t))).Nodup :=
    (List.nodup_range _).map hinj
  have hle := (List.subperm_of_subset hnodup hsub).length_le
  simp at hle

theorem searchFrom_spec (occupied : List (List Char))
    (stem ext : List Char) :
    ∀ fuel i : Nat,
      (∃ t, t < fuel ∧ candName stem ext (i + t) ∉ occupied) →
      ∃ t, candName stem ext (i + t) ∉ occupied
        ∧ (∀ u, u < t → candName stem ext (i + u) ∈ occupied)
        ∧ searchFrom occupied stem ext i fuel
          = candName stem ext (i + t) := by
  intro fuel
  induction fuel with
  | zero =>
    rintro i ⟨t, ht, _⟩
    omega
  | succ fuel' ih =>
    rintro i ⟨t, ht, hfree⟩
    by_cases hc : candName stem ext i ∈ occupied
    · have hne : t ≠ 0 := by
        intro h0
        rw [h0] at hfree
        simp at hfree
        exact hfree hc
      obtain ⟨t', rfl⟩ : ∃ t', t = t' + 1 := ⟨t - 1, by omega⟩
      have hprev : candName stem ext ((i + 1) + t') ∉ occupied := by
        have hidx : (i + 1) + t' = i + (t' + 1) := by omega
        rw [hidx]
        exact hfree
      obtain ⟨t₀, hfree₀, hmin₀, heq₀⟩ := ih (i + 1) ⟨t', by omega, hprev⟩
      refine ⟨t₀ + 1, ?_, ?_, ?_⟩
      · have hidx : i + (t₀ + 1) = (i + 1) + t₀ := by omega
        rw [hidx]
        exact hfree₀
      · intro u hu
        cases u with
        | zero => simpa using hc
        | succ u' =>
          have hidx : i + (u' + 1) = (i + 1) + u' := by omega
          rw [hidx]
          exact hmin₀ u' (by omega)
      · have hstep : searchFrom occupied stem ext i (fuel' + 1)
            = searchFrom occupied stem ext (i + 1) fuel' := by
          simp [searchFrom, hc]
        rw [hstep, heq₀]
        congr 1
        omega
    · refine ⟨0, by simpa using hc, by omega, ?_⟩
      simp [searchFrom, hc]

/-- Claim C6: `unique_path` returns the name itself when no entry exists,
and otherwise the name built from the stem, a space, the parenthesized
counter and the extension, for the smallest counter k ≥ 1 whose name is
free; successive collisions therefore yield the distinct names `name`,
`name (1)`, `name (2)`, and so on. -/
theorem unique_path_minimal (occupied : List (List Char))
    (name : List Char) :
    (name ∉ occupied → unique_path occupied name = name)
    ∧ (name ∈ occupied →
        ∃ k, 1 ≤ k
          ∧ unique_path occupied name
            = candName (splitExt name).1 (splitExt name).2 k
          ∧ candName (splitExt name).1 (splitExt name).2 k ∉ occupied
          ∧ ∀ j, 1 ≤ j → j < k →
              candName (splitExt name).1 (splitExt name).2 j ∈ occupied) := by
  constructor
  · intro hfree
    simp [unique_path, hfree]
  · intro hmem
    have hup : unique_path occupied name
        = searchFrom occupied (splitExt name).1 (splitExt name).2 1
            (occupied.length + 1) := by
      simp [unique_path, hmem]
    obtain ⟨t, htle, hfree⟩ :=
      exists_free_cand occupied (splitExt name).1 (splitExt name).2
    obtain ⟨t₀, hfree₀, hmin₀, heq₀⟩ :=
      searchFrom_spec occupied (splitExt name).1 (splitExt name).2
        (occupied.length + 1) 1 ⟨t, by omega, hfree⟩
    refine ⟨1 + t₀, by omega, ?_, hfree₀, ?_⟩
    · rw [hup, heq₀]
    · intro j hj1 hjk
      have hidx : j = 1 + (j - 1) := by omega
      rw [hidx]
      exact hmin₀ (j - 1) (by omega)

/-- Witness for C6: a free directory keeps the name; a directory already
holding `a` yields a renamed candidate with the minimal counter. -/
theorem unique_path_minimal_witness :
    unique_path [] ['a'] = ['a']
    ∧ ∃ k, 1 ≤ k
        ∧ unique_path [['a']] ['a']
          = candName (splitExt ['a']).1 (splitExt ['a']).2 k
        ∧ candName (splitExt ['a']).1 (splitExt ['a']).2 k ∉ [['a']]
        ∧ ∀ j, 1 ≤ j → j < k →
            candName (splitExt ['a']).1 (splitExt ['a']).2 j ∈ [['a']] :=
  ⟨(unique_path_minimal [] ['a']).1 (by decide),
   (unique_path_minimal [['a']] ['a']).2 (by decide)⟩

end P2PShare
